import Mathlib

/-
Verification of the eventrouter package (src/eventrouter.go).

The package builds a publish/subscribe router around a single actor
goroutine (New, lines 33-93) that exclusively owns a cache, a
subscription table and a subscription-id counter, and serves one
transaction at a time from five request channels (cancelSubC,
subscribeC, sendC, countC, clearC).  We embed the actor as a state
machine: a state `RState`, a transaction type `Txn` with one
constructor per select case, and a step function `step` transcribing
each handler's body.  A Go runtime panic (the slice-bounds check in
the eviction code, line 80) is modelled by `Option`: `none` is a
panic of the actor goroutine.

Each subscription's delivery channel is modelled by the list of items
handed off to it, in hand-off order; the per-subscription delivery
goroutine (lines 109-119) drains that channel in order into the
consumer callback, so the list is also the callback delivery order.

The public facade functions (lines 95-137) each build a request with a
fresh one-shot response channel and then await the response.  Whether
a facade function ever dispatches its request to an actor channel
before awaiting is transcribed into `FacadeOp` lists below; a facade
call whose await is not preceded by a dispatch blocks forever, because
the fresh response channel is reachable by no other goroutine.
-/

namespace EventRouter

/-- An actor transaction: one constructor per case of the actor's
select loop (src/eventrouter.go lines 40-91).  Note the loop has no
case serving `getItemsReq`: the `Items` facade's request type has no
handler. -/
inductive Txn (α : Type) where
  | send (item : α)
  | subscribe (tail : Bool)
  | cancel (id : Nat)
  | count
  | clear
  deriving DecidableEq, Repr

/-- The actor goroutine's guarded state (lines 34-38): the cache, the
next subscription id (initially 1000), and the subscription table.
Each table entry pairs a subscription id with the list of items handed
off to that subscription's update channel so far, in order. -/
structure RState (α : Type) where
  cache : List α
  nextSubId : Nat
  subs : List (Nat × List α)
  deriving DecidableEq, Repr

/-- Initial actor state (lines 34-38): empty cache, nextSubId = 1000,
empty subscription table. -/
def initState (α : Type) : RState α := ⟨[], 1000, []⟩

/-- Eviction step of the sendC handler (lines 78-82):
`if cacheDepth != 0 { if overflow := len(cache) + 1 - cacheDepth; overflow > 0 { cache = cache[overflow-1:] } }`.
Go's slice expression `cache[overflow-1:]` requires
`overflow - 1 <= len(cache)` and panics otherwise; the panic is
modelled as `none`. -/
def evict {α : Type} (cacheDepth : Int) (cache : List α) : Option (List α) :=
  if cacheDepth ≠ 0 then
    let overflow : Int := (cache.length : Int) + 1 - cacheDepth
    if overflow > 0 then
      if overflow - 1 ≤ (cache.length : Int) then
        some (cache.drop (overflow - 1).toNat)
      else
        none
    else
      some cache
  else
    some cache

/-- Broadcast of the sendC handler (lines 75-77): hand the item to
every currently registered subscription's update channel. -/
def broadcast {α : Type} (item : α) (subs : List (Nat × List α)) :
    List (Nat × List α) :=
  subs.map (fun p => (p.1, p.2 ++ [item]))

/-- The cancelSubC handler's `delete(subscriptions, req.id)` (line 46):
remove the entry keyed `id` from the table. -/
def removeSub {α : Type} (id : Nat) : List (Nat × List α) → List (Nat × List α)
  | [] => []
  | p :: rest => if p.1 = id then removeSub id rest else p :: removeSub id rest

/-- Go map lookup `subscriptions[id]` on the modelled table. -/
def findSub {α : Type} (id : Nat) : List (Nat × List α) → Option (List α)
  | [] => none
  | p :: rest => if p.1 = id then some p.2 else findSub id rest

/-- One actor step, transcribing the select cases (lines 40-91):
cancel deletes the id (line 46); subscribe allocates the next id with
a fresh channel and, if `tail`, replays the cache onto it in order
(lines 49-72); send broadcasts to every subscription, then evicts,
then appends (lines 74-84); count replies with `len(cache)` leaving
the state alone (lines 85-86); clear truncates the cache (lines
88-90).  `none` is a panic in the step. -/
def step {α : Type} (cacheDepth : Int) (s : RState α) : Txn α → Option (RState α)
  | .send item =>
      (evict cacheDepth s.cache).map
        (fun c => ⟨c ++ [item], s.nextSubId, broadcast item s.subs⟩)
  | .subscribe tail =>
      some ⟨s.cache, s.nextSubId + 1,
            s.subs ++ [(s.nextSubId, if tail then s.cache else [])]⟩
  | .cancel id => some ⟨s.cache, s.nextSubId, removeSub id s.subs⟩
  | .count => some s
  | .clear => some ⟨[], s.nextSubId, s.subs⟩

/-- The value the countC handler replies with: `len(cache)` (line 86). -/
def countReply {α : Type} (s : RState α) : Nat := s.cache.length

/-- Run the actor from a state over a list of transactions, stopping
with `none` if any step panics. -/
def runFrom {α : Type} (cacheDepth : Int) : RState α → List (Txn α) → Option (RState α)
  | s, [] => some s
  | s, t :: ts => (step cacheDepth s t).bind (fun s2 => runFrom cacheDepth s2 ts)

/-- Run the actor from the initial state. -/
def routerRun {α : Type} (cacheDepth : Int) (ts : List (Txn α)) : Option (RState α) :=
  runFrom cacheDepth (initState α) ts

/-- The items of the Send transactions of a transaction list, in order. -/
def sentItems {α : Type} (ts : List (Txn α)) : List α :=
  ts.filterMap (fun t => match t with | .send x => some x | _ => none)

/-- Channel operations a facade function performs on behalf of one
call: dispatching its request to an actor input channel, or awaiting
on its own fresh response channel. -/
inductive FacadeOp where
  | dispatch
  | await
  deriving DecidableEq, Repr

/-- Whether a facade call completes while the actor serves requests.
An await completes only if the call dispatched its request first: the
response channel is freshly made by the call and handed to the actor
only inside the dispatched request, so with no prior dispatch nothing
can ever send on it. -/
def completesFrom : Bool → List FacadeOp → Bool
  | _, [] => true
  | _, .dispatch :: rest => completesFrom true rest
  | dispatched, .await :: rest => dispatched && completesFrom dispatched rest

/-- A facade call completes iff its operations complete starting with
nothing dispatched. -/
def completes (ops : List FacadeOp) : Bool := completesFrom false ops

/-- router.Send (lines 95-99): builds the request, dispatches it on
sendC, then awaits the response. -/
def sendOps : List FacadeOp := [.dispatch, .await]

/-- The sub helper behind Tail and Subscribe (lines 102-108): builds
the request, dispatches it on subscribeC, then awaits the response. -/
def subscribeOps : List FacadeOp := [.dispatch, .await]

/-- router.Items (lines 124-128): builds a getItemsReq with a fresh
response channel and awaits `res := <-req.resp` without ever
dispatching the request to any channel. -/
def itemsOps : List FacadeOp := [.await]

/-- router.Clear (lines 129-132): builds a clearItemsReq and awaits
`<-req.resp` without ever dispatching the request to clearC. -/
def clearOps : List FacadeOp := [.await]

/-- router.Count (lines 133-137): builds a countItemsReq and awaits
`resp := <-req.resp` without ever dispatching the request to countC. -/
def countOps : List FacadeOp := [.await]

/-- Reduction of an integer to Go's 64-bit two's-complement int: the
unique value congruent mod 2^64 lying in [-2^63, 2^63).  Go int
arithmetic wraps on overflow with defined behavior. -/
def wrap64 (x : Int) : Int := (x + 2 ^ 63) % 2 ^ 64 - 2 ^ 63

/-- The smallest Go int value (math.MinInt on a 64-bit platform). -/
def minInt64 : Int := -(2 ^ 63)

/-- The largest Go int value (math.MaxInt on a 64-bit platform). -/
def maxInt64 : Int := 2 ^ 63 - 1

/-- Eviction step of the sendC handler with Go's wrapping int
arithmetic (lines 78-82).  `overflow := len(cache) + 1 - cacheDepth`
evaluates left to right in 64-bit wrapping int, so both the addition
and the subtraction are reduced by wrap64; the slice index
`overflow - 1` likewise.  As in evict, the slice-bounds panic of
`cache[overflow-1:]` is modelled as `none`. -/
def evictW {α : Type} (cacheDepth : Int) (cache : List α) : Option (List α) :=
  if cacheDepth ≠ 0 then
    let overflow : Int := wrap64 (wrap64 ((cache.length : Int) + 1) - cacheDepth)
    if overflow > 0 then
      if wrap64 (overflow - 1) ≤ (cache.length : Int) then
        some (cache.drop (wrap64 (overflow - 1)).toNat)
      else
        none
    else
      some cache
  else
    some cache

/-- One actor step with the wrapping eviction arithmetic; identical to
step except that the sendC handler's eviction is evictW. -/
def stepW {α : Type} (cacheDepth : Int) (s : RState α) : Txn α → Option (RState α)
  | .send item =>
      (evictW cacheDepth s.cache).map
        (fun c => ⟨c ++ [item], s.nextSubId, broadcast item s.subs⟩)
  | .subscribe tail =>
      some ⟨s.cache, s.nextSubId + 1,
            s.subs ++ [(s.nextSubId, if tail then s.cache else [])]⟩
  | .cancel id => some ⟨s.cache, s.nextSubId, removeSub id s.subs⟩
  | .count => some s
  | .clear => some ⟨[], s.nextSubId, s.subs⟩

/-- Run the actor with wrapping arithmetic from a state. -/
def runFromW {α : Type} (cacheDepth : Int) : RState α → List (Txn α) → Option (RState α)
  | s, [] => some s
  | s, t :: ts => (stepW cacheDepth s t).bind (fun s2 => runFromW cacheDepth s2 ts)

/-- Run the actor with wrapping arithmetic from the initial state. -/
def routerRunW {α : Type} (cacheDepth : Int) (ts : List (Txn α)) : Option (RState α) :=
  runFromW cacheDepth (initState α) ts

/-- The eviction slice (line 80) executes for a given depth and cache
length iff the guard `cacheDepth != 0` (line 78) and the test
`overflow > 0` (line 79) both pass, overflow computed in wrapping
arithmetic. -/
def evictionFires (cacheDepth : Int) (len : Nat) : Prop :=
  cacheDepth ≠ 0 ∧ 0 < wrap64 (wrap64 ((len : Int) + 1) - cacheDepth)

/-- Evicting with depth 0 (the only depth the guard on line 78
excludes) never changes the cache. -/
lemma evict_zero {α : Type} (cache : List α) : evict 0 cache = some cache := by
  simp [evict]

/-- Numeric value of 2 to the 63rd, for feeding wrap64 facts to omega. -/
lemma pow63 : (2 : Int) ^ 63 = 9223372036854775808 := by norm_num

/-- Numeric value of 2 to the 64th, for feeding wrap64 facts to omega. -/
lemma pow64 : (2 : Int) ^ 64 = 18446744073709551616 := by norm_num

/-- wrap64 is the representative of its argument's class mod 2^64 in
the Go int range. -/
lemma wrap64_spec (x : Int) :
    wrap64 x % 2 ^ 64 = x % 2 ^ 64 ∧ -(2 ^ 63) ≤ wrap64 x ∧ wrap64 x < 2 ^ 63 := by
  unfold wrap64
  simp only [pow63, pow64]
  omega

/-- A value already in the Go int range is fixed by wrap64. -/
lemma wrap64_of_bounds (x : Int) (h1 : -(2 ^ 63) ≤ x) (h2 : x < 2 ^ 63) :
    wrap64 x = x := by
  have h := wrap64_spec x
  simp only [pow63, pow64] at h h1 h2
  omega

/-- Broadcast appends the item to every table entry's delivery list,
leaving the keys alone. -/
lemma findSub_broadcast {α : Type} (x : α) (id : Nat)
    (subs : List (Nat × List α)) :
    findSub id (broadcast x subs) = (findSub id subs).map (fun q => q ++ [x]) := by
  induction subs with
  | nil => rfl
  | cons p rest ih =>
      by_cases h : p.1 = id
      · simp [broadcast, findSub, h]
      · simp only [broadcast, List.map_cons] at ih ⊢
        simp [findSub, h, ih]

/-- Lookup ignores entries appended after a hit. -/
lemma findSub_append_left {α : Type} (id : Nat)
    (subs extra : List (Nat × List α)) (q : List α)
    (h : findSub id subs = some q) : findSub id (subs ++ extra) = some q := by
  induction subs with
  | nil => simp [findSub] at h
  | cons p rest ih =>
      by_cases hp : p.1 = id
      · simp only [findSub, hp, if_pos] at h
        simp [findSub, hp, h]
      · simp only [findSub, hp, if_neg, if_false] at h
        simp [findSub, hp, ih h]

/-- Lookup passes over a miss-only prefix. -/
lemma findSub_append_none {α : Type} (id : Nat)
    (subs extra : List (Nat × List α))
    (h : findSub id subs = none) : findSub id (subs ++ extra) = findSub id extra := by
  induction subs with
  | nil => rfl
  | cons p rest ih =>
      by_cases hp : p.1 = id
      · simp [findSub, hp] at h
      · simp only [findSub, hp, if_neg, if_false] at h
        simp [findSub, hp, ih h]

/-- Deleting one key leaves lookups of every other key unchanged. -/
lemma findSub_removeSub_ne {α : Type} (id j : Nat) (hne : j ≠ id)
    (subs : List (Nat × List α)) :
    findSub id (removeSub j subs) = findSub id subs := by
  induction subs with
  | nil => rfl
  | cons p rest ih =>
      by_cases hp : p.1 = j
      · have hpid : p.1 ≠ id := fun hc => hne (hp ▸ hc)
        simp [removeSub, findSub, hp, hpid, ih, hne]
      · by_cases hid : p.1 = id
        · simp [removeSub, findSub, hp, hid, Ne.symm hne]
        · simp [removeSub, findSub, hp, hid, ih]

/-- After deleting a key it is no longer found. -/
lemma findSub_removeSub_self {α : Type} (id : Nat)
    (subs : List (Nat × List α)) :
    findSub id (removeSub id subs) = none := by
  induction subs with
  | nil => rfl
  | cons p rest ih =>
      by_cases hp : p.1 = id
      · simp [removeSub, findSub, hp, ih]
      · simp [removeSub, findSub, hp, ih]

/-- Deleting a key that is not in the table is a no-op. -/
lemma removeSub_of_findSub_none {α : Type} (id : Nat)
    (subs : List (Nat × List α))
    (h : findSub id subs = none) : removeSub id subs = subs := by
  induction subs with
  | nil => rfl
  | cons p rest ih =>
      by_cases hp : p.1 = id
      · simp [findSub, hp] at h
      · simp only [findSub, hp, if_neg, if_false] at h
        simp [removeSub, hp, ih h]

/-- Deleting the same key twice equals deleting it once. -/
lemma removeSub_idem {α : Type} (id : Nat) (subs : List (Nat × List α)) :
    removeSub id (removeSub id subs) = removeSub id subs :=
  removeSub_of_findSub_none id _ (findSub_removeSub_self id subs)

/-- Membership in the table after a delete implies membership before. -/
lemma mem_removeSub {α : Type} (id : Nat) (p : Nat × List α)
    (subs : List (Nat × List α)) (h : p ∈ removeSub id subs) : p ∈ subs := by
  induction subs with
  | nil => simp [removeSub] at h
  | cons hd rest ih =>
      by_cases hp : hd.1 = id
      · simp only [removeSub, hp, if_pos] at h
        exact List.mem_cons_of_mem hd (ih h)
      · simp only [removeSub, hp, if_neg, if_false, List.mem_cons] at h
        rcases h with h | h
        · exact h ▸ List.mem_cons_self hd rest
        · exact List.mem_cons_of_mem hd (ih h)

/-- No transaction of a pure send batch is a cancel. -/
lemma cancel_not_mem_map_send {α : Type} (id : Nat) (xs : List α) :
    Txn.cancel id ∉ xs.map Txn.send := by
  simp [List.mem_map]

/-- The sent items of a pure send batch are the batch itself. -/
lemma sentItems_map_send {α : Type} (xs : List α) :
    sentItems (xs.map Txn.send) = xs := by
  induction xs with
  | nil => rfl
  | cons x rest ih => simp [sentItems, List.filterMap_cons] at ih ⊢; exact ih

/-- Delivery tracking: a subscription present in the table with
delivery list `q`, not cancelled during a successfully processed
transaction list, ends with delivery list `q` followed by exactly the
items of that list's Send transactions, in order.  This is the
broadcast loop (lines 75-77): each Send hands its item to every
current subscription exactly once, and nothing else touches a
subscription's channel. -/
lemma findSub_runFrom {α : Type} (d : Int) (id : Nat) :
    ∀ (ts : List (Txn α)) (s s' : RState α) (q : List α),
      findSub id s.subs = some q →
      Txn.cancel id ∉ ts →
      runFrom d s ts = some s' →
      findSub id s'.subs = some (q ++ sentItems ts)
  | [], s, s', q, hq, _, hrun => by
      simp only [runFrom, Option.some.injEq] at hrun
      subst hrun
      simp [sentItems, hq]
  | t :: ts, s, s', q, hq, hnc, hrun => by
      have hnc2 : Txn.cancel id ∉ ts := fun h => hnc (List.mem_cons_of_mem t h)
      obtain ⟨s2, hstep, hrest⟩ : ∃ s2, step d s t = some s2 ∧ runFrom d s2 ts = some s' := by
        simpa only [runFrom, Option.bind_eq_some] using hrun
      cases t with
      | send x =>
          obtain ⟨c, _, hs2⟩ : ∃ c, evict d s.cache = some c ∧
              (⟨c ++ [x], s.nextSubId, broadcast x s.subs⟩ : RState α) = s2 := by
            simpa only [step, Option.map_eq_some'] using hstep
          have hq2 : findSub id s2.subs = some (q ++ [x]) := by
            rw [← hs2]
            simp [findSub_broadcast, hq]
          have := findSub_runFrom d id ts s2 s' (q ++ [x]) hq2 hnc2 hrest
          simpa [sentItems, List.filterMap_cons, List.append_assoc] using this
      | subscribe b =>
          have hs2 : s2.subs = s.subs ++ [(s.nextSubId, if b then s.cache else [])] := by
            simp only [step, Option.some.injEq] at hstep
            rw [← hstep]
          have hq2 : findSub id s2.subs = some q := by
            rw [hs2]; exact findSub_append_left id _ _ q hq
          have := findSub_runFrom d id ts s2 s' q hq2 hnc2 hrest
          simpa [sentItems, List.filterMap_cons] using this
      | cancel j =>
          have hji : j ≠ id := by
            intro hc
            exact hnc (by rw [hc]; exact List.mem_cons_self _ _)
          have hs2 : s2.subs = removeSub j s.subs := by
            simp only [step, Option.some.injEq] at hstep
            rw [← hstep]
          have hq2 : findSub id s2.subs = some q := by
            rw [hs2, findSub_removeSub_ne id j hji]; exact hq
          have := findSub_runFrom d id ts s2 s' q hq2 hnc2 hrest
          simpa [sentItems, List.filterMap_cons] using this
      | count =>
          have hs2 : s2 = s := by
            simp only [step, Option.some.injEq] at hstep
            rw [← hstep]
          have := findSub_runFrom d id ts s2 s' q (hs2 ▸ hq) hnc2 hrest
          simpa [sentItems, List.filterMap_cons] using this
      | clear =>
          have hs2 : s2.subs = s.subs := by
            simp only [step, Option.some.injEq] at hstep
            rw [← hstep]
          have hq2 : findSub id s2.subs = some q := by rw [hs2]; exact hq
          have := findSub_runFrom d id ts s2 s' q hq2 hnc2 hrest
          simpa [sentItems, List.filterMap_cons] using this

/-- All keys of the subscription table lie below the id counter. -/
def keysBelow {α : Type} (n : Nat) (subs : List (Nat × List α)) : Prop :=
  ∀ p ∈ subs, p.1 < n

/-- One actor step preserves key freshness: ids are handed out from a
counter that only ever increases (nextSubId++, line 72). -/
lemma keysBelow_step {α : Type} (d : Int) (s s2 : RState α) (t : Txn α)
    (hinv : keysBelow s.nextSubId s.subs) (hstep : step d s t = some s2) :
    keysBelow s2.nextSubId s2.subs := by
  cases t with
  | send x =>
      obtain ⟨c, _, hs2⟩ : ∃ c, evict d s.cache = some c ∧
          (⟨c ++ [x], s.nextSubId, broadcast x s.subs⟩ : RState α) = s2 := by
        simpa only [step, Option.map_eq_some'] using hstep
      rw [← hs2]
      intro p hp
      obtain ⟨p0, hp0, hfp⟩ := List.mem_map.mp hp
      have : p.1 = p0.1 := by rw [← hfp]
      rw [this]
      exact hinv p0 hp0
  | subscribe b =>
      simp only [step, Option.some.injEq] at hstep
      rw [← hstep]
      intro p hp
      rcases List.mem_append.mp hp with h | h
      · exact Nat.lt_succ_of_lt (hinv p h)
      · have : p = (s.nextSubId, if b then s.cache else []) := List.mem_singleton.mp h
        rw [this]
        exact Nat.lt_succ_self _
  | cancel j =>
      simp only [step, Option.some.injEq] at hstep
      rw [← hstep]
      intro p hp
      exact hinv p (mem_removeSub j p s.subs hp)
  | count =>
      simp only [step, Option.some.injEq] at hstep
      rw [← hstep]
      exact hinv
  | clear =>
      simp only [step, Option.some.injEq] at hstep
      rw [← hstep]
      exact hinv

/-- Key freshness is preserved along any successful run. -/
lemma keysBelow_runFrom {α : Type} (d : Int) :
    ∀ (ts : List (Txn α)) (s s' : RState α),
      keysBelow s.nextSubId s.subs → runFrom d s ts = some s' →
      keysBelow s'.nextSubId s'.subs
  | [], s, s', hinv, hrun => by
      simp only [runFrom, Option.some.injEq] at hrun
      exact hrun ▸ hinv
  | t :: ts, s, s', hinv, hrun => by
      obtain ⟨s2, hstep, hrest⟩ : ∃ s2, step d s t = some s2 ∧ runFrom d s2 ts = some s' := by
        simpa only [runFrom, Option.bind_eq_some] using hrun
      exact keysBelow_runFrom d ts s2 s' (keysBelow_step d s s2 t hinv hstep) hrest

/-- Every state reached from construction has a fresh id counter. -/
lemma keysBelow_routerRun {α : Type} (d : Int) (ts : List (Txn α)) (s : RState α)
    (hrun : routerRun d ts = some s) : keysBelow s.nextSubId s.subs :=
  keysBelow_runFrom d ts (initState α) s (fun p hp => absurd hp (List.not_mem_nil p)) hrun

/-- A fresh id is not yet in the table. -/
lemma findSub_none_of_keysBelow {α : Type} (n : Nat)
    (subs : List (Nat × List α)) (h : keysBelow n subs) : findSub n subs = none := by
  induction subs with
  | nil => rfl
  | cons p rest ih =>
      have hp : p.1 < n := h p (List.mem_cons_self p rest)
      have hne : p.1 ≠ n := Nat.ne_of_lt hp
      simp only [findSub, hne, if_neg, if_false]
      exact ih (fun q hq => h q (List.mem_cons_of_mem p hq))

/-- Running a concatenation runs the pieces in sequence. -/
lemma runFrom_append {α : Type} (d : Int) :
    ∀ (xs ys : List (Txn α)) (s : RState α),
      runFrom d s (xs ++ ys) = (runFrom d s xs).bind (fun s2 => runFrom d s2 ys)
  | [], ys, s => by simp [runFrom]
  | x :: xs, ys, s => by
      simp only [List.cons_append, runFrom]
      cases step d s x with
      | none => rfl
      | some s2 => simp [runFrom_append d xs ys s2]

/-- With depth 0 a batch of sends never panics and appends the batch
to the cache in order: the eviction guard (line 78) is disabled and
line 83 appends. -/
lemma cache_runFrom_sends_zero {α : Type} :
    ∀ (xs : List α) (s : RState α),
      (runFrom 0 s (xs.map Txn.send)).map RState.cache = some (s.cache ++ xs)
  | [], s => by simp [runFrom]
  | x :: xs, s => by
      simp only [List.map_cons, runFrom, step, evict_zero, Option.map_some', Option.some_bind]
      have := cache_runFrom_sends_zero xs
          (⟨s.cache ++ [x], s.nextSubId, broadcast x s.subs⟩ : RState α)
      simpa [List.append_assoc] using this

/-- C1: the claim says that with maxCacheDepth = 2 and Send 0, Send 1,
Send 2 the cache holds exactly the last 2 items, Items() returns them
and Count() returns 2.  The code disagrees twice: the eviction slice
`cache[overflow-1:]` (line 80) drops one item too few, so the actor's
cache after the three sends is [0, 1, 2] of length 3, and the Items
and Count facades (lines 124-128, 133-137) never dispatch their
requests, so neither call ever returns. -/
theorem send_three_depth_two_keeps_three :
    routerRun 2 [Txn.send 0, Txn.send 1, Txn.send 2] =
      some ⟨[0, 1, 2], 1000, []⟩ ∧
    completes itemsOps = false ∧ completes countOps = false := by decide

/-- C2: the claim says every Items() call returns a snapshot of the
cache.  In the code router.Items (lines 124-128) builds a getItemsReq
with a fresh response channel and immediately awaits it without ever
dispatching the request — and the actor's select loop has no case for
getItemsReq at all — so an Items() call blocks forever, while Send and
Subscribe, which do dispatch, complete. -/
theorem items_facade_never_returns :
    completes itemsOps = false ∧ completes sendOps = true ∧
    completes subscribeOps = true := by decide

/-- C3: the claim says every maxCacheDepth < 1 gives an unbounded
cache.  That holds for depth 0 (second conjunct: any batch of sends
accumulates in order), but for a negative depth the eviction guard
`cacheDepth != 0` (line 78) still fires and the first Send evaluates
`cache[overflow-1:]` with overflow - 1 >= 1 on the empty cache, a
slice-bounds panic (first conjunct). -/
theorem negative_depth_not_unbounded :
    routerRun (-1) [Txn.send (0 : Nat)] = none ∧
    (∀ xs : List Nat,
      (routerRun 0 (xs.map Txn.send)).map RState.cache = some xs) :=
  ⟨by decide, fun xs => by
    simpa [initState] using cache_runFrom_sends_zero xs (initState Nat)⟩

/-- Witness for C3 at the concrete batch [4, 5]. -/
theorem negative_depth_not_unbounded_witness :
    routerRun (-1) [Txn.send (0 : Nat)] = none ∧
    (routerRun 0 ([4, 5].map Txn.send)).map RState.cache = some [4, 5] :=
  ⟨negative_depth_not_unbounded.1, negative_depth_not_unbounded.2 [4, 5]⟩

/-- C4: the claim says every Count() call returns the cache length.
The actor's countC handler (lines 85-86) is total and leaves the state
unchanged, replying with len(cache); but router.Count (lines 133-137)
awaits its fresh response channel without ever dispatching the request
to countC, so a Count() call blocks forever. -/
theorem count_facade_never_returns :
    completes countOps = false ∧
    (∀ (d : Int) (s : RState Nat),
      step d s Txn.count = some s ∧ countReply s = s.cache.length) :=
  ⟨by decide, fun _ _ => ⟨rfl, rfl⟩⟩

/-- Witness for C4 at depth 0 and the initial state. -/
theorem count_facade_never_returns_witness :
    completes countOps = false ∧
    step 0 (initState Nat) Txn.count = some (initState Nat) ∧
    countReply (initState Nat) = (initState Nat).cache.length :=
  ⟨count_facade_never_returns.1,
   (count_facade_never_returns.2 0 (initState Nat)).1,
   (count_facade_never_returns.2 0 (initState Nat)).2⟩

/-- C5: the claim states the invariant that with maxCacheDepth >= 1
the cache length stays at most maxCacheDepth after every actor step.
The eviction off-by-one (line 80, `cache[overflow-1:]` instead of
`cache[overflow:]`) breaks it: with depth 2, after the third send the
cache is [5, 6, 7] of length 3.  (The order half of the invariant does
hold: the cache lists the sent items in send order.) -/
theorem bounded_depth_invariant_violated :
    (routerRun 2 [Txn.send 5, Txn.send 6, Txn.send 7]).map
        (fun s => s.cache.length) = some 3 ∧
    (routerRun 2 [Txn.send 5, Txn.send 6, Txn.send 7]).map
        (fun s => s.cache) = some [5, 6, 7] := by decide

/-- C6: a registration with tail set replays the whole cache, in cache
order, onto the new subscription's channel within the registration's
actor step (lines 67-71), and the subscription then receives each
later send exactly once (lines 75-77).  First conjunct: the concrete
scenario — a Tail subscriber registered on the empty router followed
by Send a, Send b has received exactly [a, b], once each, in order.
Second conjunct: in general, from any state whose id counter is fresh,
registering with tail and then sending the batch xs leaves the new
subscription's delivery list equal to the cache at registration time
followed by xs. -/
theorem tail_replay_then_live :
    (∀ a b : Nat, routerRun 0 [Txn.subscribe true, Txn.send a, Txn.send b] =
        some ⟨[a, b], 1001, [(1000, [a, b])]⟩) ∧
    (∀ (s s' : RState Nat) (xs : List Nat),
        findSub s.nextSubId s.subs = none →
        runFrom 0 s (Txn.subscribe true :: xs.map Txn.send) = some s' →
        findSub s.nextSubId s'.subs = some (s.cache ++ xs)) := by
  constructor
  · intro a b
    rfl
  · intro s s' xs hfresh hrun
    obtain ⟨s2, hstep, hrest⟩ : ∃ s2, step 0 s (Txn.subscribe true) = some s2 ∧
        runFrom 0 s2 (xs.map Txn.send) = some s' := by
      simpa only [runFrom, Option.bind_eq_some] using hrun
    simp only [step, if_true, Option.some.injEq] at hstep
    have hs2subs : s2.subs = s.subs ++ [(s.nextSubId, s.cache)] := by
      rw [← hstep]
    have hq : findSub s.nextSubId s2.subs = some s.cache := by
      rw [hs2subs, findSub_append_none _ _ _ hfresh]
      simp [findSub]
    have := findSub_runFrom 0 s.nextSubId (xs.map Txn.send) s2 s' s.cache hq
        (cancel_not_mem_map_send _ xs) hrest
    rwa [sentItems_map_send] at this

/-- Witness for C6: the scenario at a = 1, b = 2, and the general
conjunct at a state with cache [9] and the batch [3]. -/
theorem tail_replay_then_live_witness :
    routerRun 0 [Txn.subscribe true, Txn.send 1, Txn.send 2] =
      some ⟨[1, 2], 1001, [(1000, [1, 2])]⟩ ∧
    findSub 1000 [(1000, [9, 3])] = some ([9] ++ [3]) :=
  ⟨tail_replay_then_live.1 1 2,
   tail_replay_then_live.2 ⟨[9], 1000, []⟩ ⟨[9, 3], 1001, [(1000, [9, 3])]⟩ [3]
     (by decide) (by decide)⟩

/-- C7: the claim says Clear() empties the cache and changes nothing
else.  The actor's clearC handler (lines 88-90) does exactly that —
second conjunct: clear then a send leaves the cache at [x] and the
table equal to the old table with x broadcast to every subscription;
third conjunct: every subscription present before still receives the
later item.  But router.Clear (lines 129-132) awaits its fresh
response channel without ever dispatching the request to clearC, so a
Clear() call blocks forever and the cache is never actually cleared
(first conjunct). -/
theorem clear_facade_never_returns :
    completes clearOps = false ∧
    (∀ (s : RState Nat) (x : Nat),
        runFrom 0 s [Txn.clear, Txn.send x] =
          some ⟨[x], s.nextSubId, broadcast x s.subs⟩) ∧
    (∀ (x id : Nat) (subs : List (Nat × List Nat)) (q : List Nat),
        findSub id subs = some q →
        findSub id (broadcast x subs) = some (q ++ [x])) := by
  refine ⟨by decide, fun s x => ?_, fun x id subs q h => ?_⟩
  · simp [runFrom, step, evict_zero]
  · simp [findSub_broadcast, h]

/-- Witness for C7 at a one-subscription state. -/
theorem clear_facade_never_returns_witness :
    completes clearOps = false ∧
    runFrom 0 (⟨[8], 1001, [(1000, [8])]⟩ : RState Nat) [Txn.clear, Txn.send 4] =
      some ⟨[4], 1001, broadcast 4 [(1000, [8])]⟩ ∧
    findSub 1000 (broadcast 4 [(1000, [8])]) = some ([8] ++ [4]) :=
  ⟨clear_facade_never_returns.1,
   clear_facade_never_returns.2.1 ⟨[8], 1001, [(1000, [8])]⟩ 4,
   clear_facade_never_returns.2.2 4 1000 [(1000, [8])] [8] (by decide)⟩

/-- C8: cancelling is total and idempotent.  The cancelSubC handler
(lines 45-47) always replies, only deleting the id from the table
(first conjunct); deleting an id that is not in the table is a no-op
(second conjunct); deleting twice equals deleting once (third
conjunct); and after a delete the id is gone (fourth conjunct). -/
theorem cancel_idempotent_total :
    (∀ (d : Int) (s : RState Nat) (id : Nat),
        step d s (Txn.cancel id) =
          some ⟨s.cache, s.nextSubId, removeSub id s.subs⟩) ∧
    (∀ (id : Nat) (subs : List (Nat × List Nat)),
        findSub id subs = none → removeSub id subs = subs) ∧
    (∀ (id : Nat) (subs : List (Nat × List Nat)),
        removeSub id (removeSub id subs) = removeSub id subs) ∧
    (∀ (id : Nat) (subs : List (Nat × List Nat)),
        findSub id (removeSub id subs) = none) :=
  ⟨fun _ _ _ => rfl,
   fun id subs h => removeSub_of_findSub_none id subs h,
   fun id subs => removeSub_idem id subs,
   fun id subs => findSub_removeSub_self id subs⟩

/-- Witness for C8 at a concrete table. -/
theorem cancel_idempotent_total_witness :
    step 0 (⟨[], 1002, [(1000, []), (1001, [])]⟩ : RState Nat) (Txn.cancel 1000) =
      some ⟨[], 1002, removeSub 1000 [(1000, []), (1001, [])]⟩ ∧
    removeSub 5 [(1000, ([] : List Nat))] = [(1000, [])] ∧
    removeSub 1000 (removeSub 1000 [(1000, ([] : List Nat)), (1001, [])]) =
      removeSub 1000 [(1000, ([] : List Nat)), (1001, [])] ∧
    findSub 1000 (removeSub 1000 [(1000, ([] : List Nat))]) = none :=
  ⟨cancel_idempotent_total.1 0 ⟨[], 1002, [(1000, []), (1001, [])]⟩ 1000,
   cancel_idempotent_total.2.1 5 [(1000, [])] (by decide),
   cancel_idempotent_total.2.2.1 1000 [(1000, []), (1001, [])],
   cancel_idempotent_total.2.2.2 1000 [(1000, [])]⟩

/-- C9: a Subscribe registration (tail not set) creates its channel
empty — the replay loop is guarded by req.tail (lines 67-71) — so the
subscription's delivery list after any further transactions consists
of exactly the items of the Send transactions processed after the
registration, in order: no item whose Send the actor processed before
the registration is ever delivered to it. -/
theorem subscribe_receives_no_past_items :
    ∀ (d : Int) (pre post : List (Txn Nat)) (s s' : RState Nat),
      routerRun d pre = some s →
      runFrom d s (Txn.subscribe false :: post) = some s' →
      Txn.cancel s.nextSubId ∉ post →
      findSub s.nextSubId s'.subs = some (sentItems post) := by
  intro d pre post s s' hpre hrun hnc
  have hinv := keysBelow_routerRun d pre s hpre
  have hfresh : findSub s.nextSubId s.subs = none :=
    findSub_none_of_keysBelow _ _ hinv
  obtain ⟨s2, hstep, hrest⟩ : ∃ s2, step d s (Txn.subscribe false) = some s2 ∧
      runFrom d s2 post = some s' := by
    simpa only [runFrom, Option.bind_eq_some] using hrun
  simp only [step, if_false, Option.some.injEq] at hstep
  have hs2subs : s2.subs = s.subs ++ [(s.nextSubId, [])] := by
    rw [← hstep]
    simp
  have hq : findSub s.nextSubId s2.subs = some [] := by
    rw [hs2subs, findSub_append_none _ _ _ hfresh]
    simp [findSub]
  have := findSub_runFrom d s.nextSubId post s2 s' [] hq hnc hrest
  simpa using this

/-- Witness for C9: Send 5 precedes the registration, Send 7 follows
it; the subscriber's delivery list is exactly [7]. -/
theorem subscribe_receives_no_past_items_witness :
    findSub 1000 [(1000, [7])] = some (sentItems [Txn.send (7 : Nat)]) :=
  subscribe_receives_no_past_items 0 [Txn.send 5] [Txn.send 7]
    ⟨[5], 1000, []⟩ ⟨[5, 7], 1001, [(1000, [7])]⟩
    (by decide) (by decide) (by decide)

/-- C10 counterexample: the claim says the first Send panics for
every negative cacheDepth, but at cacheDepth = MinInt64 the Go
expression len(cache) + 1 - cacheDepth wraps: 1 - MinInt64 reduces
mod 2^64 to 1 - 2^63 < 0, the overflow test (line 79) fails, no
eviction is attempted and the first Send succeeds. -/
theorem negative_depth_panic_counterexample :
    minInt64 < 0 ∧
    routerRunW minInt64 [Txn.send (0 : Nat)] = some ⟨[0], 1000, []⟩ := by
  constructor
  · decide
  · decide

/-- C10 as amended: for every negative cacheDepth other than MinInt64
and MinInt64 + 1, the first Send is not total — the eviction branch
runs with overflow = 1 - cacheDepth >= 2 (no wrapping occurs there
since 1 - cacheDepth <= MaxInt64) and evaluates `cache[overflow-1:]`
on the empty cache, a slice-bounds violation (first conjunct).  At
MinInt64 and MinInt64 + 1 the wrapped overflow is negative and the
first Send succeeds without evicting (second conjunct).  Among
representable depths, the overflow test never passes for any
representable cache length exactly at cacheDepth 0, MinInt64 and
MinInt64 + 1: those three disable eviction entirely (third conjunct)
and every other depth has a representable cache length at which the
eviction slice executes (fourth conjunct). -/
theorem negative_depth_first_send_panics_wrapped :
    (∀ d : Int, minInt64 + 2 ≤ d → d < 0 → ∀ x : Nat,
        routerRunW d [Txn.send x] = none ∧ 2 ≤ 1 - d) ∧
    (∀ x : Nat,
        routerRunW minInt64 [Txn.send x] = some ⟨[x], 1000, []⟩ ∧
        routerRunW (minInt64 + 1) [Txn.send x] = some ⟨[x], 1000, []⟩) ∧
    (∀ len : Nat, (len : Int) ≤ maxInt64 →
        ¬ evictionFires 0 len ∧ ¬ evictionFires minInt64 len ∧
        ¬ evictionFires (minInt64 + 1) len) ∧
    (∀ d : Int, minInt64 ≤ d → d ≤ maxInt64 → d ≠ 0 → d ≠ minInt64 →
        d ≠ minInt64 + 1 → ∃ len : Nat, (len : Int) ≤ maxInt64 ∧ evictionFires d len) := by
  refine ⟨?_, ?_, ?_, ?_⟩
  · intro d hd1 hd2 x
    have hd1' : -(9223372036854775808 : Int) + 2 ≤ d := by
      simpa only [minInt64, pow63] using hd1
    have hw1 : wrap64 1 = 1 := by decide
    have hw2 : wrap64 (1 - d) = 1 - d := by
      apply wrap64_of_bounds <;> simp only [pow63] <;> omega
    have hw3 : wrap64 (1 - d - 1) = 1 - d - 1 := by
      apply wrap64_of_bounds <;> simp only [pow63] <;> omega
    have hev : evictW d ([] : List Nat) = none := by
      simp only [evictW, List.length_nil, Nat.cast_zero, zero_add, hw1, hw2, hw3]
      rw [if_pos (by omega : d ≠ 0), if_pos (by omega : 1 - d > 0),
        if_neg (by omega : ¬(1 - d - 1 ≤ (0 : Int)))]
    refine ⟨?_, by omega⟩
    simp only [routerRunW, runFromW, stepW, initState, hev,
      Option.map_none', Option.none_bind]
  · intro x
    have hev1 : evictW minInt64 ([] : List Nat) = some [] := by decide
    have hev2 : evictW (minInt64 + 1) ([] : List Nat) = some [] := by decide
    constructor
    · simp only [routerRunW, runFromW, stepW, initState, hev1,
        Option.map_some', Option.some_bind]
      simp [broadcast]
    · simp only [routerRunW, runFromW, stepW, initState, hev2,
        Option.map_some', Option.some_bind]
      simp [broadcast]
  · intro len hlen
    refine ⟨by simp [evictionFires], ?_, ?_⟩
    · simp only [evictionFires, not_and, not_lt]
      intro _
      have hs1 := wrap64_spec ((len : Int) + 1)
      have hs2 := wrap64_spec (wrap64 ((len : Int) + 1) - minInt64)
      simp only [minInt64, maxInt64, pow63, pow64] at hs1 hs2 hlen ⊢
      omega
    · simp only [evictionFires, not_and, not_lt]
      intro _
      have hs1 := wrap64_spec ((len : Int) + 1)
      have hs2 := wrap64_spec (wrap64 ((len : Int) + 1) - (minInt64 + 1))
      simp only [minInt64, maxInt64, pow63, pow64] at hs1 hs2 hlen ⊢
      omega
  · intro d hdlo hdhi hd0 hdm hdm1
    rcases lt_or_gt_of_ne hd0 with hneg | hpos
    · refine ⟨0, ?_, hd0, ?_⟩
      · simp only [maxInt64, pow63]
        omega
      · have hs1 := wrap64_spec (((0 : Nat) : Int) + 1)
        have hs2 := wrap64_spec (wrap64 (((0 : Nat) : Int) + 1) - d)
        simp only [minInt64, maxInt64, pow63, pow64] at hs1 hs2 hdlo hdhi hdm hdm1 ⊢
        omega
    · refine ⟨d.toNat, ?_, hd0, ?_⟩
      · simp only [maxInt64, pow63] at hdhi ⊢
        omega
      · have hs1 := wrap64_spec ((d.toNat : Int) + 1)
        have hs2 := wrap64_spec (wrap64 ((d.toNat : Int) + 1) - d)
        simp only [minInt64, maxInt64, pow63, pow64] at hs1 hs2 hdlo hdhi ⊢
        omega

/-- Witness for the amended C10 at d = -5 (panics), d = MinInt64
(succeeds), len = 7 (no firing at the three disabled depths) and
d = -1 (fires at some representable length). -/
theorem negative_depth_first_send_panics_wrapped_witness :
    routerRunW (-5) [Txn.send (3 : Nat)] = none ∧ 2 ≤ 1 - (-5 : Int) ∧
    routerRunW minInt64 [Txn.send (3 : Nat)] = some ⟨[3], 1000, []⟩ ∧
    (¬ evictionFires 0 7 ∧ ¬ evictionFires minInt64 7 ∧
      ¬ evictionFires (minInt64 + 1) 7) ∧
    (∃ len : Nat, (len : Int) ≤ maxInt64 ∧ evictionFires (-1) len) :=
  ⟨(negative_depth_first_send_panics_wrapped.1 (-5) (by decide) (by decide) 3).1,
   (negative_depth_first_send_panics_wrapped.1 (-5) (by decide) (by decide) 3).2,
   (negative_depth_first_send_panics_wrapped.2.1 3).1,
   negative_depth_first_send_panics_wrapped.2.2.1 7 (by decide),
   negative_depth_first_send_panics_wrapped.2.2.2 (-1) (by decide) (by decide)
     (by decide) (by decide) (by decide)⟩

end EventRouter
